import Mathlib

/-!
Verification of the tauriage key-vault and crypto-bridge core.

The definitions below are a shallow embedding of the TypeScript frontend
(`src/components/KeyManagementTab.tsx`, `src/components/EncryptionTab.tsx`,
`src/context/EncryptionStateContext.tsx`, `src/hooks/useKeyStore.ts`,
`src/hooks/useAge.ts`) together with spec-modelled definitions for the Rust
backend commands (vault codec, passphrase manager) whose source is not part
of the frontend tree.  Effectful TypeScript is embedded by passing the
outcome of each backend/dialog interaction explicitly as a parameter.
-/

namespace Tauriage

/-- The `StoredKey` record (frontend `src/types`, backend `StoredKey`):
`id` is the opaque unique identifier used as the merge key, `privateKey`
and `comment` are optional. -/
structure StoredKey where
  id : String
  name : String
  publicKey : String
  privateKey : Option String
  comment : Option String
  createdAt : Nat
deriving DecidableEq, Repr

/-! ## Import merge (`KeyManagementTab.handleImportConfirm`, lines 267-281)

```ts
const existingIds = new Set(storedKeys.map(k => k.id));
const newKeys = importedKeys.filter(k => !existingIds.has(k.id));
const mergedKeys = [...storedKeys, ...newKeys];
```
The JS `Set` is embedded as the list of ids with membership testing. -/

/-- The imported records kept by the merge: those whose `id` does not occur
among the existing records' ids. -/
def newKeys (storedKeys importedKeys : List StoredKey) : List StoredKey :=
  let existingIds := storedKeys.map (fun k => k.id)
  importedKeys.filter (fun k => !(existingIds.contains k.id))

/-- The merged collection `[...storedKeys, ...newKeys]`. -/
def mergeKeys (storedKeys importedKeys : List StoredKey) : List StoredKey :=
  storedKeys ++ newKeys storedKeys importedKeys

/-- The import report shown by the success toast:
`newKeys.length` new key(s), `importedKeys.length - newKeys.length`
duplicate(s) skipped. -/
def importReport (storedKeys importedKeys : List StoredKey) : Nat × Nat :=
  ((newKeys storedKeys importedKeys).length,
   importedKeys.length - (newKeys storedKeys importedKeys).length)

/-! ## Substring matching (JS `String.prototype.includes`) -/

/-- `leadMatch n h` is true when `n` is an initial segment of `h`. -/
def leadMatch : List Char → List Char → Bool
  | [], _ => true
  | _ :: _, [] => false
  | n :: ns, h :: hs => n == h && leadMatch ns hs

/-- `hasSubAux h n`: some suffix of `h` starts with `n`. -/
def hasSubAux (h n : List Char) : Bool :=
  leadMatch n h ||
    (match h with
     | [] => false
     | _ :: t => hasSubAux t n)

/-- `hasSub s sub` embeds the JS test `s.includes(sub)`. -/
def hasSub (s sub : String) : Bool := hasSubAux s.data sub.data

/-! ## Crypto-operation bridge (`src/hooks/useAge.ts`, `generateKeys`) -/

/-- The key pair returned by `generate_age_keys`. -/
structure AgeKeyPair where
  publicKey : String
  privateKey : String
  comment : Option String
deriving DecidableEq, Repr

/-- The failure classification of `generateKeys` (useAge.ts lines 98-102):
```ts
const isAgeNotFound =
  errorMessage.includes('age') ||
  errorMessage.includes('not found') ||
  errorMessage.includes('Failed to execute') ||
  errorMessage.includes('program not found');
``` -/
def isAgeNotFound (errorMessage : String) : Bool :=
  hasSub errorMessage "age" ||
  hasSub errorMessage "not found" ||
  hasSub errorMessage "Failed to execute" ||
  hasSub errorMessage "program not found"

/-- Modelled from the spec: the Rust backend (`src-tauri/src/age.rs`, not in
the frontend tree) signals that "the subprocess cannot be started (binary
missing)" with a spawn-failure message; such messages carry the runtime's
spawn-error wording ("Failed to execute" / "program not found") rather than
an exit status. -/
def isStartFailureMsg (errorMessage : String) : Bool :=
  hasSub errorMessage "Failed to execute" || hasSub errorMessage "program not found"

/-- The per-OS provisioning command chosen by `generateKeys`
(useAge.ts lines 123-134); an unsupported OS throws. -/
def platformCommand (os : String) : Option String :=
  if os = "windows" then some "install-age-windows"
  else if os = "linux" then some "install-age-linux"
  else if os = "macos" then some "install-age-macos"
  else none

/-- The install-success test `installOutput.code === 0 || installOutput.code === null`
(useAge.ts line 144). -/
def installSucceeded (code : Option Int) : Bool :=
  code == some 0 || code == none

/-- Environment of one `generateKeys` call: the outcome of the first
`generate_age_keys` invocation, the user's answer to the install dialog,
the platform string, the install subprocess exit code (`none` embeds the
JS `null` code), and the outcome of the retried invocation. -/
structure GenEnv where
  firstResult : Except String AgeKeyPair
  userConfirms : Bool
  platform : String
  installExit : Option Int
  retryResult : Except String AgeKeyPair

deriving instance DecidableEq for Except

/-- Observable result of one `generateKeys` call: the value returned or the
error message thrown, how many times `generate_age_keys` was invoked, and
whether the install-offer dialog was shown. -/
structure GenRun where
  result : Except String AgeKeyPair
  invocations : Nat
  offerShown : Bool
deriving DecidableEq, Repr

/-- Embedding of `generateKeys` (useAge.ts lines 86-194).  Failure paths:
an unsupported OS, a failed install, or a failed retry all propagate to
`catch (dialogError) { throw error }`, which rethrows the ORIGINAL error;
a declined dialog throws, which that same catch replaces by the original
error. -/
def runGenerateKeys : GenEnv → GenRun
  | ⟨Except.ok kp, _, _, _, _⟩ => ⟨.ok kp, 1, false⟩
  | ⟨Except.error msg, userConfirms, platform, installExit, retryResult⟩ =>
    if isAgeNotFound msg then
      if userConfirms then
        match platformCommand platform with
        | none => ⟨.error msg, 1, true⟩
        | some _ =>
          if installSucceeded installExit then
            match retryResult with
            | .ok kp => ⟨.ok kp, 2, true⟩
            | .error _ => ⟨.error msg, 2, true⟩
          else ⟨.error msg, 1, true⟩
      else ⟨.error msg, 1, true⟩
    else ⟨.error msg, 1, false⟩

/-! ## Key deletion (`KeyManagementTab.confirmDelete`, lines 159-178) -/

/-- The index-based removal `storedKeys.filter((_, i) => i !== index)`. -/
def filterIdxNe (l : List StoredKey) (index : Nat) : List StoredKey :=
  (l.enum.filter (fun p => p.1 != index)).map Prod.snd

/-- Embedding of `confirmDelete`: returns the updated in-memory list and
the `saveKeyStorage(passphrase, keys)` call made, if any.  The save happens
only under `if (autoPassphrase)`. -/
def confirmDelete (storedKeys : List StoredKey) (index : Nat)
    (autoPassphrase : Option String) :
    List StoredKey × Option (String × List StoredKey) :=
  let updatedKeys := filterIdxNe storedKeys index
  match autoPassphrase with
  | some pass => (updatedKeys, some (pass, updatedKeys))
  | none => (updatedKeys, none)

/-! ## `useKeyStore.keyStorageExists` (useKeyStore.ts lines 13-20) -/

/-- Embedding of `keyStorageExists`: the backend invocation's outcome is a
parameter; a thrown error is caught and reported as `false`. -/
def keyStorageExists (filePath : Option String)
    (backend : Option String → Except String Bool) : Bool :=
  match backend filePath with
  | .ok b => b
  | .error _ => false

/-! ## Encryption form state (`EncryptionStateContext.tsx`, `EncryptionTab.handleEncrypt`) -/

/-- The encryption slice of the shared context state. -/
structure EncryptionState where
  selectedFile : Option String
  outputFile : String
  recipients : List String
  useArmor : Bool
deriving DecidableEq, Repr

/-- The initial encryption state (EncryptionStateContext.tsx lines 53-58). -/
def initialEncryptionState : EncryptionState :=
  { selectedFile := none, outputFile := "", recipients := [], useArmor := false }

/-- `clearEncryptionState` (EncryptionStateContext.tsx lines 106-113). -/
def clearEncryptionState : EncryptionState := initialEncryptionState

/-- The result returned by `encrypt_file_cmd`. -/
structure EncryptionResult where
  success : Bool
  inputFile : String
  outputFile : String
  publicKeys : List String
deriving DecidableEq, Repr

/-- Embedding of `EncryptionTab.handleEncrypt` (lines 393-422): validation
guards return early (no call); on a successful `encryptFile` call the state
is cleared; a thrown error only shows a toast.  The boolean records whether
`encryptFile` was invoked. -/
def handleEncrypt (encryption : EncryptionState)
    (encryptOutcome : Except String EncryptionResult) : EncryptionState × Bool :=
  if encryption.selectedFile = none then (encryption, false)
  else if encryption.outputFile = "" then (encryption, false)
  else if encryption.recipients = [] then (encryption, false)
  else
    match encryptOutcome with
    | .ok _ => (clearEncryptionState, true)
    | .error _ => (encryption, true)

/-! ## Export / import confirm handlers (`KeyManagementTab.tsx`) -/

/-- Outcome of `handleExportConfirm`. -/
inductive ExportStep
  | rejectedShortPassphrase
  | rejectedMismatch
  | cancelledDialog
  | exported
  | failed (msg : String)
deriving DecidableEq, Repr

/-- Embedding of `handleExportConfirm` (lines 207-235): passphrase-length
and confirmation checks run before the save dialog and before `exportKeys`.
The boolean records whether the `export_keys_cmd` codec was invoked. -/
def handleExportConfirm (exportPassphrase exportPassphraseConfirm : String)
    (savePicked : Option String) (exportOutcome : Except String Unit) :
    ExportStep × Bool :=
  if exportPassphrase.length < 4 then (.rejectedShortPassphrase, false)
  else if exportPassphrase ≠ exportPassphraseConfirm then (.rejectedMismatch, false)
  else
    match savePicked with
    | none => (.cancelledDialog, false)
    | some _ =>
      match exportOutcome with
      | .ok _ => (.exported, true)
      | .error m => (.failed m, true)

/-- Outcome of `handleImportConfirm`. -/
inductive ImportStep
  | rejectedNoFile
  | rejectedShortPassphrase
  | imported (report : Nat × Nat)
  | failed (msg : String)
deriving DecidableEq, Repr

/-- Embedding of `handleImportConfirm` (lines 255-289): the file-path and
passphrase-length checks run before `importKeys`; on success the merged
collection replaces the stored list and the report toast is shown.  The
boolean records whether the `import_keys_cmd` codec was invoked. -/
def handleImportConfirm (importFilePath : String) (importPassphrase : String)
    (storedKeys : List StoredKey) (importOutcome : Except String (List StoredKey)) :
    ImportStep × Bool × List StoredKey :=
  if importFilePath = "" then (.rejectedNoFile, false, storedKeys)
  else if importPassphrase.length < 4 then (.rejectedShortPassphrase, false, storedKeys)
  else
    match importOutcome with
    | .ok importedKeys =>
      (.imported (importReport storedKeys importedKeys), true,
       mergeKeys storedKeys importedKeys)
    | .error m => (.failed m, true, storedKeys)

/-! ## PassphraseManager (spec §4.1) — backend `src-tauri` code not in the
frontend tree, modelled from the spec. -/

/-- Modelled from the spec: the state of the passphrase record's well-known
filesystem location (`none` = no record yet), with a count of writes
performed to it. -/
structure PassStore where
  passFile : Option String
  writeCount : Nat
deriving DecidableEq, Repr

/-- Modelled from the spec: `get_or_create_passphrase` — if a record exists
at the well-known location, read and return it unchanged; otherwise persist
and return `fresh`, a newly generated cryptographically random printable
string (the entropy source's output is passed explicitly). -/
def getOrCreatePassphrase (fresh : String) (s : PassStore) : String × PassStore :=
  match s.passFile with
  | some p => (p, s)
  | none => (fresh, { passFile := some fresh, writeCount := s.writeCount + 1 })

/-! ## VaultCodec (spec §4.2) — backend `src-tauri` code not in the frontend
tree, modelled from the spec: KDF from passphrase and salt, canonical
serialization of the record list, idealized AEAD, versioned container. -/

/-- Modelled from the spec: the symmetric key derived from the passphrase
and the stored salt by the iterated KDF; derivation is a deterministic
function of exactly these two inputs, so it is repeatable from the salt
stored alongside the ciphertext. -/
def deriveKey (passphrase : String) (salt : List Nat) : List Nat :=
  passphrase.length :: (passphrase.data.map Char.toNat ++ salt)

/-- Modelled from the spec: the ciphertext-with-tag produced by the AEAD,
idealized as a perfectly binding blob — it determines (and its tag binds)
the key, the nonce and the payload bytes it was sealed with. -/
structure SealedBox where
  boundKey : List Nat
  boundNonce : List Nat
  payload : List Nat
deriving DecidableEq, Repr

/-- Modelled from the spec: AEAD sealing of serialized payload bytes under
a 256-bit key and 96-bit nonce. -/
def aeadSeal (key nonce payload : List Nat) : SealedBox :=
  ⟨key, nonce, payload⟩

/-- Modelled from the spec: AEAD opening — the integrity tag verifies
exactly when the key and nonce match the ones the blob was sealed with;
any mismatch (wrong passphrase, corruption, tampering) fails closed. -/
def aeadOpen (key nonce : List Nat) (box : SealedBox) : Option (List Nat) :=
  if box.boundKey = key ∧ box.boundNonce = nonce then some box.payload else none

/-! Canonical byte serialization of the record list (spec §4.2 step 2),
modelled as a length-prefixed encoding into a list of byte values. -/

/-- One serialized number. -/
def encodeNat (n : Nat) : List Nat := [n]

/-- Read back one serialized number. -/
def decodeNat : List Nat → Option (Nat × List Nat)
  | n :: rest => some (n, rest)
  | [] => none

/-- A string: its length followed by its character codes. -/
def encodeStr (s : String) : List Nat :=
  s.length :: s.data.map Char.toNat

/-- Read back one length-prefixed string. -/
def decodeStr : List Nat → Option (String × List Nat)
  | n :: rest =>
    if n ≤ rest.length then
      some (String.mk ((rest.take n).map Char.ofNat), rest.drop n)
    else none
  | [] => none

/-- An optional string: a presence flag, then the string when present. -/
def encodeOptStr : Option String → List Nat
  | none => [0]
  | some s => 1 :: encodeStr s

/-- Read back one optional string. -/
def decodeOptStr : List Nat → Option (Option String × List Nat)
  | 0 :: rest => some (none, rest)
  | 1 :: rest => (decodeStr rest).map (fun p => (some p.1, p.2))
  | _ => none

/-- One serialized `StoredKey`, field by field. -/
def encodeKey (k : StoredKey) : List Nat :=
  encodeStr k.id ++ encodeStr k.name ++ encodeStr k.publicKey ++
  encodeOptStr k.privateKey ++ encodeOptStr k.comment ++ encodeNat k.createdAt

/-- Read back one serialized `StoredKey`. -/
def decodeKey (l : List Nat) : Option (StoredKey × List Nat) := do
  let (kid, r1) ← decodeStr l
  let (kname, r2) ← decodeStr r1
  let (kpub, r3) ← decodeStr r2
  let (kpriv, r4) ← decodeOptStr r3
  let (kcomment, r5) ← decodeOptStr r4
  let (kcreated, r6) ← decodeNat r5
  pure (⟨kid, kname, kpub, kpriv, kcomment, kcreated⟩, r6)

/-- The serialized record list: a count followed by the records. -/
def encodeKeys (ks : List StoredKey) : List Nat :=
  ks.length :: (ks.map encodeKey).flatten

/-- Read back `n` serialized records. -/
def decodeKeysAux : Nat → List Nat → Option (List StoredKey × List Nat)
  | 0, rest => some ([], rest)
  | n + 1, rest => do
    let (k, r1) ← decodeKey rest
    let (ks, r2) ← decodeKeysAux n r1
    pure (k :: ks, r2)

/-- Read back a serialized record list, requiring all input consumed. -/
def decodeKeys (l : List Nat) : Option (List StoredKey) :=
  match l with
  | n :: rest =>
    match decodeKeysAux n rest with
    | some (ks, []) => some ks
    | _ => none
  | [] => none

/-- The persisted vault artifact (spec §3, §6): version, KDF salt, AEAD
nonce, ciphertext-with-tag. -/
structure VaultFile where
  version : Nat
  salt : List Nat
  nonce : List Nat
  ciphertext : SealedBox
deriving DecidableEq, Repr

/-- Modelled from the spec: the codec step of `save_key_storage` — derive
the key from the passphrase and a freshly drawn salt, serialize the
records, seal under the derived key and a freshly drawn nonce, and bundle
version 1 + salt + nonce + ciphertext.  The fresh randomness is passed
explicitly by the caller. -/
def encryptVault (passphrase : String) (salt nonce : List Nat)
    (records : List StoredKey) : VaultFile :=
  ⟨1, salt, nonce, aeadSeal (deriveKey passphrase salt) nonce (encodeKeys records)⟩

/-- Modelled from the spec: the codec step of `load_key_storage` — reject
unknown versions before derivation, rederive the key from the stored salt,
open the ciphertext, deserialize. -/
def decryptVault (passphrase : String) (v : VaultFile) : Option (List StoredKey) :=
  if v.version ≠ 1 then none
  else
    match aeadOpen (deriveKey passphrase v.salt) v.nonce v.ciphertext with
    | none => none
    | some payload => decodeKeys payload

/-! ## Round-trip lemmas for the canonical serialization -/

theorem decodeStr_encodeStr (s : String) (r : List Nat) :
    decodeStr (encodeStr s ++ r) = some (s, r) := by
  have hdata : s.length = s.data.length := rfl
  simp only [encodeStr, List.cons_append, decodeStr]
  have hle : s.length ≤ (s.data.map Char.toNat ++ r).length := by
    rw [List.length_append, List.length_map, ← hdata]
    exact Nat.le_add_right _ _
  rw [if_pos hle]
  have hlen : s.length = (s.data.map Char.toNat).length := by
    rw [List.length_map]
    exact hdata
  rw [hlen, List.take_left, List.drop_left]
  have hmap : Char.ofNat ∘ Char.toNat = id := funext Char.ofNat_toNat
  simp [List.map_map, hmap]

theorem decodeOptStr_encodeOptStr (o : Option String) (r : List Nat) :
    decodeOptStr (encodeOptStr o ++ r) = some (o, r) := by
  cases o with
  | none => simp [encodeOptStr, decodeOptStr]
  | some s => simp [encodeOptStr, decodeOptStr, List.append_assoc, decodeStr_encodeStr]

theorem decodeNat_encodeNat (n : Nat) (r : List Nat) :
    decodeNat (encodeNat n ++ r) = some (n, r) := rfl

set_option maxRecDepth 4000 in
theorem decodeKey_encodeKey (k : StoredKey) (r : List Nat) :
    decodeKey (encodeKey k ++ r) = some (k, r) := by
  simp [decodeKey, encodeKey, List.append_assoc, decodeStr_encodeStr,
    decodeOptStr_encodeOptStr, encodeNat, decodeNat]

set_option maxRecDepth 4000 in
theorem decodeKeysAux_encode (ks : List StoredKey) (r : List Nat) :
    decodeKeysAux ks.length ((ks.map encodeKey).flatten ++ r) = some (ks, r) := by
  induction ks generalizing r with
  | nil => simp [decodeKeysAux]
  | cons k t ih =>
    simp [decodeKeysAux, List.append_assoc, decodeKey_encodeKey, ih]

theorem decodeKeys_encodeKeys (ks : List StoredKey) :
    decodeKeys (encodeKeys ks) = some ks := by
  have h := decodeKeysAux_encode ks []
  rw [List.append_nil] at h
  simp [decodeKeys, encodeKeys, h]

/-- A sample record used by concrete witnesses. -/
def mkRec (i : String) : StoredKey :=
  { id := i, name := "k", publicKey := "age1pub", privateKey := none,
    comment := none, createdAt := 0 }

/-- Claim C1: for every list of key records and every non-empty passphrase,
decrypting the vault produced by encrypting that list with the same
passphrase returns exactly the original records. -/
theorem vault_roundtrip (passphrase : String) (salt nonce : List Nat)
    (records : List StoredKey) (_hpass : passphrase ≠ "") :
    decryptVault passphrase (encryptVault passphrase salt nonce records)
      = some records := by
  simp [decryptVault, encryptVault, aeadOpen, aeadSeal, decodeKeys_encodeKeys]

/-- Witness for C1 at a concrete passphrase, salt, nonce and record list. -/
theorem vault_roundtrip_witness :
    ("pw01" : String) ≠ "" ∧
    decryptVault "pw01" (encryptVault "pw01" [7, 3] [9, 9] [mkRec "a", mkRec "b"])
      = some [mkRec "a", mkRec "b"] :=
  ⟨by decide, vault_roundtrip "pw01" [7, 3] [9, 9] [mkRec "a", mkRec "b"] (by decide)⟩

/-- Claim C8: `get_or_create_passphrase` is idempotent — on a fresh
installation the first call writes once, and every later call returns the
first call's value without writing again. -/
theorem passphrase_idempotent (fresh1 fresh2 : String) (s : PassStore)
    (hfresh : s.passFile = none) :
    (getOrCreatePassphrase fresh2 (getOrCreatePassphrase fresh1 s).2).1
      = (getOrCreatePassphrase fresh1 s).1 ∧
    (getOrCreatePassphrase fresh2 (getOrCreatePassphrase fresh1 s).2).2
      = (getOrCreatePassphrase fresh1 s).2 ∧
    ((getOrCreatePassphrase fresh1 s).2).writeCount = s.writeCount + 1 ∧
    (∀ later, (getOrCreatePassphrase later (getOrCreatePassphrase fresh1 s).2)
        = ((getOrCreatePassphrase fresh1 s).1, (getOrCreatePassphrase fresh1 s).2)) := by
  simp [getOrCreatePassphrase, hfresh]

/-- Witness for C8 on a fresh store. -/
theorem passphrase_idempotent_witness :
    (⟨none, 0⟩ : PassStore).passFile = none ∧
    (getOrCreatePassphrase "q" (getOrCreatePassphrase "p" ⟨none, 0⟩).2).1
      = (getOrCreatePassphrase "p" ⟨none, 0⟩).1 :=
  ⟨rfl, (passphrase_idempotent "p" "q" ⟨none, 0⟩ rfl).1⟩

/-- Claim C9: `keyStorageExists` never rejects — a successful backend call
passes its boolean through, and a backend failure is reported as `false`
rather than propagated. -/
theorem keyStorageExists_total (path : Option String)
    (backend : Option String → Except String Bool) :
    (∀ e, backend path = Except.error e → keyStorageExists path backend = false) ∧
    (∀ b, backend path = Except.ok b → keyStorageExists path backend = b) := by
  constructor <;> intro x h <;> simp [keyStorageExists, h]

/-- Witness for C9 with a failing backend and a succeeding backend. -/
theorem keyStorageExists_total_witness :
    keyStorageExists none (fun _ => Except.error "io failure") = false ∧
    keyStorageExists none (fun _ => Except.ok true) = true :=
  ⟨(keyStorageExists_total none (fun _ => Except.error "io failure")).1 "io failure" rfl,
   (keyStorageExists_total none (fun _ => Except.ok true)).2 true rfl⟩

/-- Claim C10: once validation passes, a successful `encryptFile` call
resets the encryption form state to its initial value (`selectedFile`
cleared, empty output path, no recipients, armor off), while a failed call
leaves every field unchanged. -/
theorem handleEncrypt_frame (st : EncryptionState) (res : Except String EncryptionResult)
    (hfile : st.selectedFile ≠ none) (hout : st.outputFile ≠ "")
    (hrec : st.recipients ≠ []) :
    initialEncryptionState
      = { selectedFile := none, outputFile := "", recipients := [], useArmor := false } ∧
    (∀ r, res = Except.ok r → handleEncrypt st res = (initialEncryptionState, true)) ∧
    (∀ m, res = Except.error m → handleEncrypt st res = (st, true)) := by
  refine ⟨rfl, ?_, ?_⟩ <;> intro x h <;>
    simp [handleEncrypt, hfile, hout, hrec, h, clearEncryptionState]

/-- Witness for C10 at a concrete filled-in form. -/
theorem handleEncrypt_frame_witness :
    handleEncrypt ⟨some "in.txt", "out.age", ["age1pub"], false⟩
        (Except.ok ⟨true, "in.txt", "out.age", ["age1pub"]⟩)
      = (initialEncryptionState, true) ∧
    handleEncrypt ⟨some "in.txt", "out.age", ["age1pub"], false⟩
        (Except.error "boom")
      = (⟨some "in.txt", "out.age", ["age1pub"], false⟩, true) :=
  ⟨((handleEncrypt_frame ⟨some "in.txt", "out.age", ["age1pub"], false⟩
      (Except.ok ⟨true, "in.txt", "out.age", ["age1pub"]⟩)
      (by decide) (by decide) (by decide)).2.1 _ rfl),
   ((handleEncrypt_frame ⟨some "in.txt", "out.age", ["age1pub"], false⟩
      (Except.error "boom")
      (by decide) (by decide) (by decide)).2.2 _ rfl)⟩

/-- Claim C2: the import merge keeps every existing record in place, appends
exactly the imported records whose id does not already occur (in import
order, after the existing records), and on existing ids {1,2} with imported
ids {2,3} produces ids [1,2,3] with a report of 1 new key and 1 skipped
duplicate. -/
theorem import_merge_spec :
    (∀ (s i : List StoredKey) (k : StoredKey),
        k ∈ mergeKeys s i ↔
          k ∈ s ∨ (k ∈ i ∧ k.id ∉ s.map (fun key => key.id))) ∧
    (∀ (s i : List StoredKey),
        (mergeKeys s i).take s.length = s ∧
        ((mergeKeys s i).drop s.length).Sublist i ∧
        ∀ k, k ∈ (mergeKeys s i).drop s.length → k.id ∉ s.map (fun key => key.id)) ∧
    ((mergeKeys [mkRec "1", mkRec "2"] [mkRec "2", mkRec "3"]).map (fun k => k.id)
        = ["1", "2", "3"] ∧
      importReport [mkRec "1", mkRec "2"] [mkRec "2", mkRec "3"] = (1, 1)) := by
  refine ⟨?_, ?_, by decide⟩
  · intro s i k
    simp [mergeKeys, newKeys, List.mem_filter, List.mem_append]
  · intro s i
    refine ⟨?_, ?_, ?_⟩
    · rw [mergeKeys]
      exact List.take_left s _
    · rw [mergeKeys, List.drop_left]
      simp only [newKeys]
      exact List.filter_sublist i
    · intro k hk
      rw [mergeKeys, List.drop_left] at hk
      have h2 : k ∈ i ∧ ∀ x ∈ s, ¬x.id = k.id := by simpa [newKeys] using hk
      simpa using h2.2

/-- Witness for C2: the spec's concrete merge example. -/
theorem import_merge_spec_witness :
    (mergeKeys [mkRec "1", mkRec "2"] [mkRec "2", mkRec "3"]).map (fun k => k.id)
        = ["1", "2", "3"] ∧
    importReport [mkRec "1", mkRec "2"] [mkRec "2", mkRec "3"] = (1, 1) :=
  import_merge_spec.2.2

/-- Claim C3 as stated is false: the merge filters imported records only
against the EXISTING ids, so an imported list that repeats a fresh id
yields a merged collection with duplicate ids. -/
theorem import_merge_nodup_counterexample :
    ((([] : List StoredKey)).map (fun k => k.id)).Nodup ∧
    ¬ ((mergeKeys [] [mkRec "9", mkRec "9"]).map (fun k => k.id)).Nodup := by
  decide

/-- Claim C3 (amended): the merge preserves id uniqueness provided the
imported list's ids are themselves pairwise distinct. -/
theorem import_merge_nodup (s i : List StoredKey)
    (hs : (s.map (fun k => k.id)).Nodup) (hi : (i.map (fun k => k.id)).Nodup) :
    ((mergeKeys s i).map (fun k => k.id)).Nodup := by
  rw [mergeKeys, List.map_append, List.nodup_append]
  refine ⟨hs, ?_, ?_⟩
  · simp only [newKeys]
    exact List.Nodup.sublist
      (List.Sublist.map (fun k => k.id) (List.filter_sublist i)) hi
  · intro a ha hb
    obtain ⟨k, hk, rfl⟩ := List.mem_map.mp hb
    have h2 : k ∈ i ∧ ∀ x ∈ s, ¬x.id = k.id := by simpa [newKeys] using hk
    obtain ⟨x, hx, hxid⟩ := List.mem_map.mp ha
    exact h2.2 x hx hxid

/-- Witness for the amended C3 on concrete distinct-id lists. -/
theorem import_merge_nodup_witness :
    ((mergeKeys [mkRec "1"] [mkRec "1", mkRec "2"]).map (fun k => k.id)).Nodup :=
  import_merge_nodup [mkRec "1"] [mkRec "1", mkRec "2"] (by decide) (by decide)

/-- Claim C4: an export or import attempt with a passphrase shorter than 4
characters is rejected by validation, and the export/import codec command
is never invoked. -/
theorem short_passphrase_blocks_codec :
    (∀ (ep epc : String) (sp : Option String) (eo : Except String Unit),
        ep.length < 4 →
        handleExportConfirm ep epc sp eo = (ExportStep.rejectedShortPassphrase, false)) ∧
    (∀ (fp ip : String) (sk : List StoredKey) (io : Except String (List StoredKey)),
        ip.length < 4 →
        (handleImportConfirm fp ip sk io).2.1 = false ∧
        ((handleImportConfirm fp ip sk io).1 = ImportStep.rejectedNoFile ∨
          (handleImportConfirm fp ip sk io).1 = ImportStep.rejectedShortPassphrase) ∧
        (handleImportConfirm fp ip sk io).2.2 = sk) := by
  constructor
  · intro ep epc sp eo h
    simp [handleExportConfirm, h]
  · intro fp ip sk io h
    by_cases hfp : fp = ""
    · simp [handleImportConfirm, hfp]
    · simp [handleImportConfirm, hfp, h]

/-- Witness for C4 with a 3-character passphrase. -/
theorem short_passphrase_blocks_codec_witness :
    handleExportConfirm "abc" "abc" (some "f.bin") (Except.ok ())
      = (ExportStep.rejectedShortPassphrase, false) ∧
    (handleImportConfirm "f.bin" "abc" [] (Except.ok [])).2.1 = false :=
  ⟨short_passphrase_blocks_codec.1 "abc" "abc" (some "f.bin") (Except.ok ()) (by decide),
   (short_passphrase_blocks_codec.2 "f.bin" "abc" [] (Except.ok []) (by decide)).1⟩

/-- Characterization of `runGenerateKeys` when the first invocation fails
with a message classified tool-not-available. -/
theorem runGenerateKeys_error_spec (env : GenEnv) (m : String)
    (hfail : env.firstResult = Except.error m) (hclass : isAgeNotFound m = true) :
    runGenerateKeys env =
      if env.userConfirms then
        match platformCommand env.platform with
        | none => ⟨.error m, 1, true⟩
        | some _ =>
          if installSucceeded env.installExit then
            match env.retryResult with
            | .ok kp => ⟨.ok kp, 2, true⟩
            | .error _ => ⟨.error m, 2, true⟩
          else ⟨.error m, 1, true⟩
      else ⟨.error m, 1, true⟩ := by
  obtain ⟨fr, uc, pf, ie, rr⟩ := env
  have h2 : fr = Except.error m := hfail
  subst h2
  simp only [runGenerateKeys, hclass, if_true]

/-- Claim C5 as stated is false: the classification is substring matching
on the error message, so the message of a generic non-zero exit of a
started engine process — it mentions the engine name "age" — is still
classified tool-not-available (and hence triggers the provisioning offer),
although the subprocess did start. -/
theorem tool_missing_classification_counterexample :
    isAgeNotFound "age-keygen exited with status 1" = true ∧
    isStartFailureMsg "age-keygen exited with status 1" = false := by
  decide

/-- Claim C5 (amended): the bridge classifies tool-not-available by
substring matching on the error message ('age' / 'not found' / 'Failed to
execute' / 'program not found'): every subprocess-start failure message is
so classified, but so can be other failures whose message merely mentions
the engine name; the provisioning offer is shown exactly when a failed
invocation's message receives this classification, and never on success. -/
theorem tool_missing_classification :
    (∀ m, isStartFailureMsg m = true → isAgeNotFound m = true) ∧
    (∀ (env : GenEnv) (m : String), env.firstResult = Except.error m →
        (runGenerateKeys env).offerShown = isAgeNotFound m) ∧
    (∀ (env : GenEnv) (kp : AgeKeyPair), env.firstResult = Except.ok kp →
        (runGenerateKeys env).offerShown = false) := by
  refine ⟨?_, ?_, ?_⟩
  · intro m h
    simp only [isStartFailureMsg, Bool.or_eq_true] at h
    simp only [isAgeNotFound, Bool.or_eq_true]
    tauto
  · intro env m hfail
    by_cases h : isAgeNotFound m = true
    · rw [runGenerateKeys_error_spec env m hfail h, h]
      split
      · split
        · rfl
        · split
          · split <;> rfl
          · rfl
      · rfl
    · obtain ⟨fr, uc, pf, ie, rr⟩ := env
      have h2 : fr = Except.error m := hfail
      subst h2
      have h3 : isAgeNotFound m = false := by simpa using h
      simp [runGenerateKeys, h3]
  · intro env kp hok
    obtain ⟨fr, uc, pf, ie, rr⟩ := env
    have h2 : fr = Except.ok kp := hok
    subst h2
    rfl

/-- Witness for the amended C5: a spawn-failure message is classified
tool-not-available, and a concrete failing run shows the offer. -/
theorem tool_missing_classification_witness :
    isAgeNotFound "Failed to execute age-keygen" = true ∧
    (runGenerateKeys ⟨Except.error "program not found", false, "linux",
        some 0, Except.error "x"⟩).offerShown
      = isAgeNotFound "program not found" :=
  ⟨tool_missing_classification.1 "Failed to execute age-keygen" (by decide),
   tool_missing_classification.2.1
     ⟨Except.error "program not found", false, "linux", some 0, Except.error "x"⟩
     "program not found" rfl⟩

/-- Claim C6: on a tool-not-available failure the original operation is
retried at most once — exactly once when the user accepts provisioning and
the platform's install command succeeds — and when provisioning is
declined, unsupported, or fails, the call rejects with the original
key-generation error after a single invocation. -/
theorem tool_missing_retry (env : GenEnv) (m : String)
    (hfail : env.firstResult = Except.error m) (hclass : isAgeNotFound m = true) :
    (∀ env' : GenEnv, (runGenerateKeys env').invocations ≤ 2) ∧
    (env.userConfirms = true → (platformCommand env.platform).isSome = true →
        installSucceeded env.installExit = true →
        (runGenerateKeys env).invocations = 2) ∧
    (env.userConfirms = false ∨ platformCommand env.platform = none ∨
        installSucceeded env.installExit = false →
        (runGenerateKeys env).result = Except.error m ∧
        (runGenerateKeys env).invocations = 1) := by
  obtain ⟨fr, uc, pf, ie, rr⟩ := env
  have h2 : fr = Except.error m := hfail
  subst h2
  refine ⟨?_, ?_, ?_⟩
  · intro env'
    obtain ⟨fr', uc', pf', ie', rr'⟩ := env'
    rcases fr' with m' | kp
    · by_cases h : isAgeNotFound m' = true
      · simp only [runGenerateKeys, h, if_true]
        split
        · split
          · simp
          · split
            · split <;> simp
            · simp
        · simp
      · have h3 : isAgeNotFound m' = false := by simpa using h
        simp [runGenerateKeys, h3]
    · simp [runGenerateKeys]
  · intro hc hp hi
    have hu : uc = true := hc
    subst hu
    obtain ⟨c, hc2⟩ := Option.isSome_iff_exists.mp hp
    have hi2 : installSucceeded ie = true := hi
    simp only [runGenerateKeys, hclass, if_true, hc2, hi2]
    rcases rr with m2 | kp <;> rfl
  · intro hbad
    rcases hbad with hb | hb | hb
    · have hu : uc = false := hb
      subst hu
      simp [runGenerateKeys, hclass]
    · have hp2 : platformCommand pf = none := hb
      cases uc <;> simp [runGenerateKeys, hclass, hp2]
    · have hi2 : installSucceeded ie = false := hb
      cases uc
      · simp [runGenerateKeys, hclass]
      · rcases hp2 : platformCommand pf with _ | c <;>
          simp [runGenerateKeys, hclass, hp2, hi2]

/-- Witness for C6: an accepted, successful provisioning run retries once
(two invocations), a declined run surfaces the original error. -/
theorem tool_missing_retry_witness :
    (runGenerateKeys ⟨Except.error "age missing", true, "linux", some 0,
        Except.ok ⟨"age1pub", "AGE-SECRET-KEY", none⟩⟩).invocations = 2 ∧
    (runGenerateKeys ⟨Except.error "age missing", false, "linux", some 0,
        Except.ok ⟨"age1pub", "AGE-SECRET-KEY", none⟩⟩).result
      = Except.error "age missing" :=
  ⟨(tool_missing_retry ⟨Except.error "age missing", true, "linux", some 0,
      Except.ok ⟨"age1pub", "AGE-SECRET-KEY", none⟩⟩ "age missing" rfl
      (by decide)).2.1 rfl rfl rfl,
   ((tool_missing_retry ⟨Except.error "age missing", false, "linux", some 0,
      Except.ok ⟨"age1pub", "AGE-SECRET-KEY", none⟩⟩ "age missing" rfl
      (by decide)).2.2 (Or.inl rfl)).1⟩

/-- Index-filtered enumeration from `n` with a target below `n` keeps the
whole list. -/
theorem enumFrom_filter_ne_lt (t : List StoredKey) (n m : Nat) (h : m < n) :
    ((List.enumFrom n t).filter (fun p => p.1 != m)).map Prod.snd = t := by
  induction t generalizing n with
  | nil => rfl
  | cons a t ih =>
    have hne : (n != m) = true := by simp; omega
    simp only [List.enumFrom, List.filter_cons, hne, if_true, List.map_cons]
    rw [ih (n + 1) (by omega)]

/-- Index-filtered enumeration from `n` with target `n + j` erases the
`j`-th element. -/
theorem enumFrom_filter_eraseIdx (t : List StoredKey) (n j : Nat) :
    ((List.enumFrom n t).filter (fun p => p.1 != (n + j))).map Prod.snd
      = t.eraseIdx j := by
  induction t generalizing n j with
  | nil => rfl
  | cons a t ih =>
    cases j with
    | zero =>
      have hhead : (n != n + 0) = false := by simp
      simp only [List.enumFrom, List.filter_cons, hhead, if_false, List.eraseIdx_zero]
      exact enumFrom_filter_ne_lt t (n + 1) (n + 0) (by omega)
    | succ jj =>
      have hhead : (n != n + (jj + 1)) = true := by simp
      have harith : n + (jj + 1) = (n + 1) + jj := by omega
      simp only [List.enumFrom, List.filter_cons, hhead, if_true, List.map_cons,
        List.eraseIdx_cons_succ]
      rw [harith, ih (n + 1) jj]

/-- The source's `storedKeys.filter((_, i) => i !== index)` is removal of
the record at `index`. -/
theorem filterIdxNe_eq_eraseIdx (l : List StoredKey) (i : Nat) :
    filterIdxNe l i = l.eraseIdx i := by
  have h := enumFrom_filter_eraseIdx l 0 i
  rw [Nat.zero_add] at h
  simpa [filterIdxNe, List.enum] using h

/-- Claim C7 as stated is false: when the auto-passphrase has not been
initialized (`autoPassphrase` is null), a confirmed deletion removes the
record from memory but performs no `saveKeyStorage` call, so the deletion
is not durable. -/
theorem delete_resave_counterexample :
    (confirmDelete [mkRec "1"] 0 none).2 = none ∧
    (confirmDelete [mkRec "1"] 0 none).1 = [] := by
  decide

/-- Claim C7 (amended): whenever the auto-passphrase is initialized, every
confirmed deletion re-saves the vault — `saveKeyStorage` is invoked with
the auto-passphrase and the collection minus the deleted record. -/
theorem delete_resaves (keys : List StoredKey) (index : Nat) (pass : String) :
    (confirmDelete keys index (some pass)).1 = keys.eraseIdx index ∧
    (confirmDelete keys index (some pass)).2 = some (pass, keys.eraseIdx index) := by
  simp [confirmDelete, filterIdxNe_eq_eraseIdx]

end Tauriage
